import Mathlib

/-!
Verification of the falcon-bot state estimator (`src/model.py`).

The Python module defines a single class `NewtonStateEngine` with two
methods: `tick` ingests an observation payload into mutable instance
state, and `predict` derives a Gaussian-mixture description from the
current state.  We embed the state as an explicit record, `tick` as a
state-transformer and `predict` as a pure function producing a
JSON-like value mirroring the Python dicts the code returns.  All
floating-point arithmetic of the source is modelled over `ℚ`: every
constant in the source (2.4, 0.15, 0.1, ...) is an exact decimal, and
every operation used (`+`, `*`, `/`, `np.var`, `np.gradient`, `np.sign`,
`np.clip`, `np.argmin`, `abs`) is rational-valued on rational inputs.
-/

/-- `np.gradient` on a 1-D array with unit spacing: one-sided differences
at the two edges, central differences in the interior.  (NumPy requires
length ≥ 2; the source only applies it to buffers of length ≥ 5.) -/
def npGradient (xs : List ℚ) : List ℚ :=
  (List.range xs.length).map fun i =>
    if i = 0 then xs.getD 1 0 - xs.getD 0 0
    else if i = xs.length - 1 then xs.getD (xs.length - 1) 0 - xs.getD (xs.length - 2) 0
    else (xs.getD (i + 1) 0 - xs.getD (i - 1) 0) / 2

/-- `np.var`: population variance (mean of squared deviations from the mean). -/
def npVar (xs : List ℚ) : ℚ :=
  let n : ℚ := xs.length
  let m := xs.sum / n
  ((xs.map fun x => (x - m) ^ 2).sum) / n

/-- Helper for `npArgmin`: scan the tail keeping the first index of the
strictly smallest value seen so far. -/
def npArgminAux : List ℚ → ℕ → ℕ → ℚ → ℕ
  | [], _, bi, _ => bi
  | x :: rest, i, bi, bv =>
    if x < bv then npArgminAux rest (i + 1) i x else npArgminAux rest (i + 1) bi bv

/-- `np.argmin`: index of the first occurrence of the minimum value.
(NumPy raises on an empty array; the source guards the call with
`len(threats) > 0`.) -/
def npArgmin : List ℚ → ℕ
  | [] => 0
  | x :: rest => npArgminAux rest 1 0 x

/-- `np.sign`. -/
def npSign (x : ℚ) : ℚ :=
  if x > 0 then 1 else if x < 0 then -1 else 0

/-- `np.clip(x, lo, hi)`. -/
def npClip (x lo hi : ℚ) : ℚ :=
  if x < lo then lo else if x > hi then hi else x

/-- Module constant `EVASION_FACTOR = 2.4`. -/
def EVASION_FACTOR : ℚ := 2.4

/-- Module constant `DISSIPATION_THRESHOLD = 0.6` (defined by the source
but never read by any computation). -/
def DISSIPATION_THRESHOLD : ℚ := 0.6

/-- The instance state of `NewtonStateEngine`.  `field_vectors` embeds the
Python dict as an insertion-ordered association list; Python dicts keep
at most one entry per key, which the update below preserves. -/
structure NewtonStateEngine where
  state_buffer : List ℚ
  buffer_size : ℕ
  last_pos : ℚ
  field_vectors : List (String × ℚ)
deriving DecidableEq

/-- `NewtonStateEngine.__init__`. -/
def initEngine : NewtonStateEngine :=
  { state_buffer := [], buffer_size := 25, last_pos := 0, field_vectors := [] }

/-- The observation payload read by `tick`: the three optional fields it
looks up (`dove_location`, `falcon_location`, `falcon_id`). -/
structure Payload where
  dove_location : Option ℚ
  falcon_location : Option ℚ
  falcon_id : Option String

/-- Python dict assignment `self.field_vectors[threat_id] = threat_loc`:
overwrite in place if the key is present, else append (insertion order). -/
def updateFieldVectors : List (String × ℚ) → String → ℚ → List (String × ℚ)
  | [], k, v => [(k, v)]
  | (k', v') :: rest, k, v =>
    if k' = k then (k, v) :: rest else (k', v') :: updateFieldVectors rest k v

/-- `NewtonStateEngine.tick`.  The `performance_metrics` argument is
accepted and unused, exactly as in the source. -/
def tick (e : NewtonStateEngine) (payload : Payload)
    (_performance_metrics : List (String × ℚ)) : NewtonStateEngine :=
  let curr_loc := payload.dove_location
  let threat_loc := payload.falcon_location
  let threat_id := payload.falcon_id
  let e1 :=
    match curr_loc with
    | some loc =>
        let buf := e.state_buffer ++ [loc]
        { e with
          last_pos := loc
          state_buffer := if buf.length > e.buffer_size then buf.drop 1 else buf }
    | none => e
  match threat_loc, threat_id with
  | some tl, some tid =>
      { e1 with field_vectors := updateFieldVectors e1.field_vectors tid tl }
  | _, _ => e1

/-- `velocity = np.gradient(path_array)[-1]`. -/
def velocity (e : NewtonStateEngine) : ℚ :=
  (npGradient e.state_buffer).getLastD 0

/-- `acceleration = np.gradient(np.gradient(path_array))[-1]`. -/
def acceleration (e : NewtonStateEngine) : ℚ :=
  (npGradient (npGradient e.state_buffer)).getLastD 0

/-- `inertial_mean = self.last_pos + velocity + (0.5 * acceleration)`. -/
def inertial_mean (e : NewtonStateEngine) : ℚ :=
  e.last_pos + velocity e + 0.5 * acceleration e

/-- `threats = np.array(list(self.field_vectors.values()))`. -/
def threats (e : NewtonStateEngine) : List ℚ :=
  e.field_vectors.map Prod.snd

/-- `field_variance`: sample variance of the threat positions, with the
single-threat sentinel 1.0 and the empty-field sentinel 10.0. -/
def field_variance (e : NewtonStateEngine) : ℚ :=
  if (threats e).length > 0 then
    (if (threats e).length > 1 then npVar (threats e) else 1.0)
  else 10.0

/-- `closest_threat_loc`: the threat at minimal absolute distance from
`last_pos` (`np.argmin` over `np.abs(threats - self.last_pos)`), or
`None` when the field is empty. -/
def closest_threat_loc (e : NewtonStateEngine) : Option ℚ :=
  if (threats e).length > 0 then
    some ((threats e).getD (npArgmin ((threats e).map fun t => |t - e.last_pos|)) 0)
  else none

/-- `repulsion_dir = np.sign(self.last_pos - closest_threat_loc)`, or 0
when the field is empty. -/
def repulsion_dir (e : NewtonStateEngine) : ℚ :=
  match closest_threat_loc e with
  | some c => npSign (e.last_pos - c)
  | none => 0

/-- Component A center: `loc_a = inertial_mean`. -/
def locA (e : NewtonStateEngine) : ℚ := inertial_mean e

/-- Component A spread: `scale_a = 0.2 + (0.1 * field_variance)`. -/
def scaleA (e : NewtonStateEngine) : ℚ := 0.2 + 0.1 * field_variance e

/-- Component B center: evasive jump away from the closest threat, or a
copy of component A when no threat exists. -/
def locB (e : NewtonStateEngine) : ℚ :=
  match closest_threat_loc e with
  | some _ => e.last_pos + EVASION_FACTOR * repulsion_dir e
  | none => locA e

/-- Component B spread: `0.15` when a closest threat exists, else a copy
of component A's spread. -/
def scaleB (e : NewtonStateEngine) : ℚ :=
  match closest_threat_loc e with
  | some _ => 0.15
  | none => scaleA e

/-- Component C center: `loc_c = self.last_pos`. -/
def locC (e : NewtonStateEngine) : ℚ := e.last_pos

/-- Component C spread: `scale_c = 4.0`. -/
def scaleC : ℚ := 4.0

/-- `cohesion_index = np.clip(1.0 / (field_variance + 0.1), 0.0, 1.0)`. -/
def cohesion_index (e : NewtonStateEngine) : ℚ :=
  npClip (1.0 / (field_variance e + 0.1)) 0.0 1.0

/-- `w_b = cohesion_index * 0.8` (value before the clamp branch). -/
def wBRaw (e : NewtonStateEngine) : ℚ := cohesion_index e * 0.8

/-- `w_c = 0.05`. -/
def wC : ℚ := 0.05

/-- `w_a = 1.0 - w_b - w_c` (value before the clamp branch). -/
def wARaw (e : NewtonStateEngine) : ℚ := 1.0 - wBRaw e - wC

/-- Final weight of component A after the normalization-safety branch
`if w_a < 0: w_a = 0`. -/
def wA (e : NewtonStateEngine) : ℚ :=
  if wARaw e < 0 then 0 else wARaw e

/-- Final weight of component B after the normalization-safety branch
`if w_a < 0: ... w_b = 1.0 - w_c`. -/
def wB (e : NewtonStateEngine) : ℚ :=
  if wARaw e < 0 then 1.0 - wC else wBRaw e

/-- A JSON-like value, mirroring the Python dicts `predict` returns. -/
inductive JVal where
  | num : ℚ → JVal
  | str : String → JVal
  | arr : List JVal → JVal
  | obj : List (String × JVal) → JVal

/-- `{"type": "scipy", "name": "norm", "params": {"loc": ..., "scale": ...}}`. -/
def normRecord (loc scale : ℚ) : JVal :=
  .obj [("type", .str "scipy"), ("name", .str "norm"),
        ("params", .obj [("loc", .num loc), ("scale", .num scale)])]

/-- One mixture component: `{"density": <scipy-norm record>, "weight": w}`. -/
def componentRecord (loc scale w : ℚ) : JVal :=
  .obj [("density", normRecord loc scale), ("weight", .num w)]

/-- The dict returned by the warmup branch of `predict`. -/
def warmupRecord (e : NewtonStateEngine) : JVal :=
  .obj [("density", normRecord e.last_pos 2.0), ("weight", .num 1.0)]

/-- The dict returned by the warm (mixture) branch of `predict`:
components A, B, C in order, wrapped with an outer weight 1.0. -/
def mixtureRecord (e : NewtonStateEngine) : JVal :=
  .obj [("density",
          .obj [("type", .str "mixture"),
                ("components",
                  .arr [componentRecord (locA e) (scaleA e) (wA e),
                        componentRecord (locB e) (scaleB e) (wB e),
                        componentRecord (locC e) scaleC wC])]),
        ("weight", .num 1.0)]

/-- `NewtonStateEngine.predict`: warmup fallback below 5 samples, else
the three-component mixture. -/
def predict (e : NewtonStateEngine) : JVal :=
  if e.state_buffer.length < 5 then warmupRecord e else mixtureRecord e

/-- `predict` as a state transformer: the method body contains no
assignment to `self`, so the embedded operation passes the state
through unchanged next to the returned value. -/
def predictOp (e : NewtonStateEngine) : NewtonStateEngine × JVal :=
  (e, predict e)

/-- Ingest a single signal position (a payload carrying only
`dove_location`, with an empty metrics record). -/
def ingestDove (e : NewtonStateEngine) (x : ℚ) : NewtonStateEngine :=
  tick e { dove_location := some x, falcon_location := none, falcon_id := none } []

/-- Ingest a list of signal positions, in order, starting from a freshly
constructed engine. -/
def ingestAll (ps : List ℚ) : NewtonStateEngine :=
  ps.foldl ingestDove initEngine

/-- The end-to-end example state: defaults, then signal positions
0, 1, 2, 3, 4 and no threats. -/
def exampleEngine : NewtonStateEngine :=
  ingestAll [0, 1, 2, 3, 4]

/-! ### Output-shape predicates

`codePredictShapeB` describes the shape the source actually returns.
`specPredictShapeB` is modelled from the spec's words (the external
interface in §6) for comparison with the source's shape. -/

/-- True iff `j` is a `{"type": "scipy", "name": "norm", "params":
{"loc": number, "scale": number}}` record. -/
def scipyNormShapeB : JVal → Bool
  | .obj [("type", .str "scipy"), ("name", .str "norm"),
          ("params", .obj [("loc", .num _), ("scale", .num _)])] => true
  | _ => false

/-- True iff `j` is a `{"density": <scipy-norm record>, "weight": number}`
record — the shape of the warmup return value and of each mixture
component in the source. -/
def codeSingleShapeB : JVal → Bool
  | .obj [("density", d), ("weight", .num _)] => scipyNormShapeB d
  | _ => false

/-- True iff `j` is a `{"density": {"type": "mixture", "components":
[...]}, "weight": number}` record whose components all have the
single-density shape — the warm-branch return shape of the source. -/
def codeMixtureShapeB : JVal → Bool
  | .obj [("density", .obj [("type", .str "mixture"), ("components", .arr cs)]),
          ("weight", .num _)] => cs.all codeSingleShapeB
  | _ => false

/-- The shape the source's `predict` actually guarantees: one of the two
record shapes above. -/
def codePredictShapeB (j : JVal) : Bool :=
  codeSingleShapeB j || codeMixtureShapeB j

/-- Modelled from the spec: the single-density record shape with fields
`kind` (tag "single"), `family` (tag "normal"), `location`, `scale`,
`weight`, promised by the external interface. -/
def specSingleShapeB : JVal → Bool
  | .obj [("kind", .str "single"), ("family", .str "normal"),
          ("location", .num _), ("scale", .num _), ("weight", .num _)] => true
  | _ => false

/-- Modelled from the spec: one mixture component, a record with fields
`density` (a single-density record) and `weight`. -/
def specComponentShapeB : JVal → Bool
  | .obj [("density", d), ("weight", .num _)] => specSingleShapeB d
  | _ => false

/-- Modelled from the spec: the mixture record shape with fields `kind`
(tag "mixture"), `components`, `weight`. -/
def specMixtureShapeB : JVal → Bool
  | .obj [("kind", .str "mixture"), ("components", .arr cs),
          ("weight", .num _)] => cs.all specComponentShapeB
  | _ => false

/-- Modelled from the spec: the prediction record has one of the two
shapes promised by the external interface. -/
def specPredictShapeB (j : JVal) : Bool :=
  specSingleShapeB j || specMixtureShapeB j

/-- True iff `j` is an object with a top-level field named `k` (in any
position). -/
def jHasKey : JVal → String → Bool
  | .obj fields, k => fields.any fun p => p.1 == k
  | _, _ => false

/-! ### Exception/NaN-checked evaluation

`predictChecked` re-runs `predict` with every partial operation guarded:
`np.gradient` needs length ≥ 2, `np.var` and `np.argmin` need a
non-empty array (NumPy errors or yields NaN otherwise), and division
needs a non-zero divisor.  It returns `none` exactly when the Python
code would raise or produce a NaN from finite inputs. -/

/-- `np.gradient` guarded by its length-≥-2 domain requirement. -/
def npGradientChecked (xs : List ℚ) : Option (List ℚ) :=
  if 2 ≤ xs.length then some (npGradient xs) else none

/-- `np.var` guarded against the empty array (NaN in NumPy). -/
def npVarChecked (xs : List ℚ) : Option ℚ :=
  if 1 ≤ xs.length then some (npVar xs) else none

/-- `np.argmin` guarded against the empty array (error in NumPy). -/
def npArgminChecked (xs : List ℚ) : Option ℕ :=
  if 1 ≤ xs.length then some (npArgmin xs) else none

/-- Division guarded against a zero divisor (inf/NaN in floats). -/
def divChecked (a b : ℚ) : Option ℚ :=
  if b = 0 then none else some (a / b)

/-- `predict` with every partial numeric operation of the source guarded;
`none` marks any input on which the Python code would raise or emit a
NaN from finite inputs. -/
def predictChecked (e : NewtonStateEngine) : Option JVal :=
  if e.state_buffer.length < 5 then
    some (warmupRecord e)
  else do
    let g ← npGradientChecked e.state_buffer
    let gg ← npGradientChecked g
    let vel := g.getLastD 0
    let acc := gg.getLastD 0
    let inertial := e.last_pos + vel + 0.5 * acc
    let ts := threats e
    let fv ←
      if ts.length > 0 then
        (if ts.length > 1 then npVarChecked ts else pure 1.0)
      else pure 10.0
    let ctl ←
      if ts.length > 0 then do
        let i ← npArgminChecked (ts.map fun t => |t - e.last_pos|)
        pure (some (ts.getD i 0))
      else pure none
    let rdir :=
      match ctl with
      | some c => npSign (e.last_pos - c)
      | none => 0
    let la := inertial
    let sa := 0.2 + 0.1 * fv
    let (lb, sb) :=
      match ctl with
      | some _ => (e.last_pos + EVASION_FACTOR * rdir, (0.15 : ℚ))
      | none => (la, sa)
    let lc := e.last_pos
    let sc := (4.0 : ℚ)
    let coh0 ← divChecked 1.0 (fv + 0.1)
    let coh := npClip coh0 0.0 1.0
    let wb := coh * 0.8
    let wc := (0.05 : ℚ)
    let wa := 1.0 - wb - wc
    let (wa, wb) := if wa < 0 then ((0 : ℚ), 1.0 - wc) else (wa, wb)
    pure (.obj [("density",
                  .obj [("type", .str "mixture"),
                        ("components",
                          .arr [componentRecord la sa wa,
                                componentRecord lb sb wb,
                                componentRecord lc sc wc])]),
                ("weight", .num 1.0)])

/-! ### Helper lemmas -/

lemma npGradient_length (xs : List ℚ) : (npGradient xs).length = xs.length := by
  simp [npGradient]

lemma npVar_nonneg (xs : List ℚ) : 0 ≤ npVar xs := by
  unfold npVar
  apply div_nonneg
  · apply List.sum_nonneg
    intro a ha
    simp only [List.mem_map] at ha
    obtain ⟨x, -, rfl⟩ := ha
    positivity
  · positivity

lemma field_variance_nonneg (e : NewtonStateEngine) : 0 ≤ field_variance e := by
  unfold field_variance
  split_ifs with h1 h2
  · exact npVar_nonneg (threats e)
  · norm_num
  · norm_num

lemma cohesion_index_le_one (e : NewtonStateEngine) : cohesion_index e ≤ 1 := by
  unfold cohesion_index npClip
  split_ifs with h1 h2
  · norm_num
  · norm_num
  · push_neg at h2
    calc (1.0 / (field_variance e + 0.1) : ℚ) ≤ 1.0 := by exact_mod_cast h2
    _ = 1 := by norm_num

lemma wARaw_ge (e : NewtonStateEngine) : 0.15 ≤ wARaw e := by
  have h1 : cohesion_index e ≤ 1 := cohesion_index_le_one e
  unfold wARaw wBRaw wC
  nlinarith

/-! ### Claim theorems -/

/-- C1. For every estimator state whose signal history holds fewer than 5
samples, `predict` returns the single normal-density record located at
`last_pos` (the zero default if nothing was ever ingested) with scale
2.0 and weight 1.0, whatever the threat field holds. -/
theorem claim_C1_warmup (e : NewtonStateEngine)
    (h : e.state_buffer.length < 5) :
    predict e =
      .obj [("density", normRecord e.last_pos 2.0), ("weight", .num 1.0)] := by
  unfold predict
  rw [if_pos h]
  rfl

/-- Witness for C1 at the freshly constructed engine (empty history,
arbitrary-free threat field, `last_pos = 0`). -/
theorem claim_C1_warmup_witness :
    initEngine.state_buffer.length < 5 ∧
    predict initEngine =
      .obj [("density", normRecord 0 2.0), ("weight", .num 1.0)] :=
  ⟨by decide, claim_C1_warmup initEngine (by decide)⟩

/-- C2. For every estimator state with at least 5 samples of history,
`predict` returns the three-component mixture and the three component
weights sum to exactly 1, in the normal branch and in the clamped
branch alike. -/
theorem claim_C2_weight_sum (e : NewtonStateEngine)
    (h : 5 ≤ e.state_buffer.length) :
    predict e = mixtureRecord e ∧ wA e + wB e + wC = 1 := by
  constructor
  · unfold predict
    rw [if_neg (not_lt.mpr h)]
  · unfold wA wB
    split_ifs with h'
    · norm_num [wC]
    · unfold wARaw
      ring_nf

/-- Witness for C2 at the end-to-end example state (history 0,1,2,3,4). -/
theorem claim_C2_weight_sum_witness :
    5 ≤ exampleEngine.state_buffer.length ∧
    (predict exampleEngine = mixtureRecord exampleEngine ∧
      wA exampleEngine + wB exampleEngine + wC = 1) :=
  ⟨by decide, claim_C2_weight_sum exampleEngine (by decide)⟩

/-- C3. End-to-end example: defaults, ingest signal positions 0,1,2,3,4
and no threats, then predict.  Component A's center is 5 (unit
velocity, zero acceleration), component B is identical to A, field
variance is 10.0, cohesion is 1/10.1, `w_b` = cohesion × 0.8, `w_c` =
0.05, and `w_a` = 1 − `w_b` − `w_c` (= 1759/2020 ≈ 0.871). -/
theorem claim_C3_end_to_end :
    predict exampleEngine = mixtureRecord exampleEngine ∧
    velocity exampleEngine = 1 ∧
    acceleration exampleEngine = 0 ∧
    locA exampleEngine = 5 ∧
    locB exampleEngine = locA exampleEngine ∧
    scaleB exampleEngine = scaleA exampleEngine ∧
    field_variance exampleEngine = 10.0 ∧
    cohesion_index exampleEngine = 1 / 10.1 ∧
    wB exampleEngine = (1 / 10.1) * 0.8 ∧
    wC = 0.05 ∧
    wA exampleEngine = 1 - wB exampleEngine - wC ∧
    wA exampleEngine = 1759 / 2020 := by
  refine ⟨rfl, ?_⟩
  norm_num [locA, locB, scaleA, scaleB, inertial_mean, velocity, acceleration,
    field_variance, cohesion_index, wA, wB, wARaw, wBRaw, wC, npClip, npSign,
    threats, closest_threat_loc, npGradient, exampleEngine, ingestAll,
    ingestDove, initEngine, tick, List.range, List.range.loop]

/-- C4 counterexample: at the freshly constructed engine the record
returned by `predict` matches neither of the two shapes promised by the
external interface — it does not even carry a top-level `kind` field. -/
theorem claim_C4_shape_counterexample :
    specPredictShapeB (predict initEngine) = false ∧
    jHasKey (predict initEngine) "kind" = false := by
  constructor <;> rfl

/-- C4 amended. For every estimator state, the record returned by
`predict` has one of the two shapes the code actually produces: either
`{"density": {"type": "scipy", "name": "norm", "params": {"loc": _,
"scale": _}}, "weight": _}` or `{"density": {"type": "mixture",
"components": [...]}, "weight": _}` with every component of the
former single-density shape. -/
theorem claim_C4_shape_amended (e : NewtonStateEngine) :
    codePredictShapeB (predict e) = true := by
  unfold predict
  split <;> rfl

/-- C9. `predict` leaves the estimator state unchanged: the signal
history, last known position, threat field and configuration constants
all survive the call identically; the returned value is paired with the
untouched state. -/
theorem claim_C9_predict_pure (e : NewtonStateEngine) :
    (predictOp e).1.state_buffer = e.state_buffer ∧
    (predictOp e).1.last_pos = e.last_pos ∧
    (predictOp e).1.field_vectors = e.field_vectors ∧
    (predictOp e).1.buffer_size = e.buffer_size ∧
    (predictOp e).1 = e ∧
    (predictOp e).2 = predict e :=
  ⟨rfl, rfl, rfl, rfl, rfl, rfl⟩

/-- C10. The normalization-safety branch is dead code: cohesion is
clamped to at most 1, so `w_b ≤ 0.8` and the pre-clamp `w_a =
1 − w_b − 0.05` is at least 0.15; hence the clamp never fires, the
final weights equal the pre-clamp ones, and component A's weight is
always at least 0.15. -/
theorem claim_C10_clamp_unreachable (e : NewtonStateEngine) :
    ¬ wARaw e < 0 ∧ wA e = wARaw e ∧ wB e = wBRaw e ∧ 0.15 ≤ wA e := by
  have hge : (0.15 : ℚ) ≤ wARaw e := wARaw_ge e
  have hnot : ¬ wARaw e < 0 := by
    intro hlt
    nlinarith
  refine ⟨hnot, ?_, ?_, ?_⟩
  · unfold wA
    rw [if_neg hnot]
  · unfold wB
    rw [if_neg hnot]
  · unfold wA
    rw [if_neg hnot]
    exact hge

lemma ingestDove_buffer_size (e : NewtonStateEngine) (x : ℚ) :
    (ingestDove e x).buffer_size = e.buffer_size := rfl

lemma ingestDove_state_buffer (e : NewtonStateEngine) (x : ℚ) :
    (ingestDove e x).state_buffer =
      if (e.state_buffer ++ [x]).length > e.buffer_size then
        (e.state_buffer ++ [x]).drop 1
      else e.state_buffer ++ [x] := rfl

/-- Invariant of the signal buffer under repeated signal ingestion: with
capacity 25 and a buffer not yet over capacity, folding in `ps` leaves
exactly the last 25 elements of the concatenation. -/
lemma foldl_ingestDove_buffer (ps : List ℚ) :
    ∀ e : NewtonStateEngine, e.buffer_size = 25 → e.state_buffer.length ≤ 25 →
      (ps.foldl ingestDove e).state_buffer =
        (e.state_buffer ++ ps).drop ((e.state_buffer ++ ps).length - 25) := by
  induction ps with
  | nil =>
    intro e hc hl
    simp only [List.foldl_nil, List.append_nil]
    rw [Nat.sub_eq_zero_of_le hl, List.drop_zero]
  | cons p ps ih =>
    intro e hc hl
    rw [List.foldl_cons]
    rcases lt_or_eq_of_le hl with hlt | heq
    · have hbuf : (ingestDove e p).state_buffer = e.state_buffer ++ [p] := by
        rw [ingestDove_state_buffer, if_neg]
        rw [hc]
        simp only [List.length_append, List.length_cons, List.length_nil]
        omega
      have hlen : (ingestDove e p).state_buffer.length ≤ 25 := by
        rw [hbuf]
        simp only [List.length_append, List.length_cons, List.length_nil]
        omega
      rw [ih (ingestDove e p) (by rw [ingestDove_buffer_size, hc]) hlen, hbuf,
        List.append_assoc, List.singleton_append]
    · have hgt : (e.state_buffer ++ [p]).length > e.buffer_size := by
        rw [hc]
        simp only [List.length_append, List.length_cons, List.length_nil]
        omega
      have hbuf : (ingestDove e p).state_buffer = (e.state_buffer ++ [p]).drop 1 := by
        rw [ingestDove_state_buffer, if_pos hgt]
      have hlen : (ingestDove e p).state_buffer.length ≤ 25 := by
        rw [hbuf, List.length_drop]
        simp only [List.length_append, List.length_cons, List.length_nil]
        omega
      rw [ih (ingestDove e p) (by rw [ingestDove_buffer_size, hc]) hlen, hbuf]
      have hone : (1 : ℕ) ≤ (e.state_buffer ++ [p]).length := by
        simp only [List.length_append, List.length_cons, List.length_nil]
        omega
      rw [← List.drop_append_of_le_length hone, List.drop_drop,
        List.length_drop, List.length_append, List.append_assoc,
        List.singleton_append]
      congr 1
      simp only [List.length_append, List.length_cons, List.length_nil]
      omega

/-- C6. After ingesting more signal positions than the default capacity
25 into a freshly constructed engine, the signal history has length
exactly 25 and holds exactly the last 25 ingested positions in
ingestion order (oldest evicted first). -/
theorem claim_C6_bounded_history (ps : List ℚ) (h : 25 < ps.length) :
    (ingestAll ps).state_buffer.length = 25 ∧
    (ingestAll ps).state_buffer = ps.drop (ps.length - 25) := by
  have key := foldl_ingestDove_buffer ps initEngine rfl (by simp [initEngine])
  simp only [initEngine, List.nil_append] at key
  unfold ingestAll initEngine
  refine ⟨?_, key⟩
  rw [key, List.length_drop]
  omega

/-- Witness for C6: 26 positions ingested into the default engine leave
the last 25 in the buffer. -/
theorem claim_C6_bounded_history_witness :
    25 < ((List.range 26).map fun n => (n : ℚ)).length ∧
    ((ingestAll ((List.range 26).map fun n => (n : ℚ))).state_buffer.length = 25 ∧
      (ingestAll ((List.range 26).map fun n => (n : ℚ))).state_buffer =
        ((List.range 26).map fun n => (n : ℚ)).drop
          (((List.range 26).map fun n => (n : ℚ)).length - 25)) :=
  ⟨by decide, claim_C6_bounded_history ((List.range 26).map fun n => (n : ℚ)) (by decide)⟩

lemma mem_keys_updateFieldVectors (fv : List (String × ℚ)) (k : String) (v : ℚ)
    (a : String) :
    a ∈ (updateFieldVectors fv k v).map Prod.fst ↔
      a ∈ fv.map Prod.fst ∨ a = k := by
  induction fv with
  | nil => simp [updateFieldVectors]
  | cons hd tl ih =>
    obtain ⟨k', v'⟩ := hd
    by_cases hk : k' = k
    · subst hk
      simp [updateFieldVectors]
      tauto
    · simp only [updateFieldVectors, if_neg hk, List.map_cons, List.mem_cons, ih]
      tauto

lemma keys_nodup_updateFieldVectors (fv : List (String × ℚ)) (k : String) (v : ℚ)
    (h : (fv.map Prod.fst).Nodup) :
    ((updateFieldVectors fv k v).map Prod.fst).Nodup := by
  induction fv with
  | nil => simp [updateFieldVectors]
  | cons hd tl ih =>
    obtain ⟨k', v'⟩ := hd
    simp only [List.map_cons, List.nodup_cons] at h
    by_cases hk : k' = k
    · subst hk
      simpa [updateFieldVectors] using h
    · simp only [updateFieldVectors, if_neg hk, List.map_cons, List.nodup_cons]
      refine ⟨?_, ih h.2⟩
      rw [mem_keys_updateFieldVectors]
      push_neg
      exact ⟨h.1, hk⟩

lemma filter_updateFieldVectors (fv : List (String × ℚ)) (k : String) (v : ℚ)
    (h : (fv.map Prod.fst).Nodup) :
    (updateFieldVectors fv k v).filter (fun p => p.1 == k) = [(k, v)] := by
  induction fv with
  | nil => simp [updateFieldVectors]
  | cons hd tl ih =>
    obtain ⟨k', v'⟩ := hd
    simp only [List.map_cons, List.nodup_cons] at h
    by_cases hk : k' = k
    · subst hk
      simp only [updateFieldVectors, if_pos rfl, List.filter_cons]
      simp only [beq_self_eq_true, if_pos]
      have : tl.filter (fun p => p.1 == k') = [] := by
        rw [List.filter_eq_nil_iff]
        intro p hp
        simp only [beq_iff_eq]
        intro hpk
        exact h.1 (hpk ▸ List.mem_map_of_mem Prod.fst hp)
      simp [this]
    · simp only [updateFieldVectors, if_neg hk, List.filter_cons]
      have : ((k', v').1 == k) = false := by
        simp [hk]
      simp only [this, Bool.false_eq_true, if_neg, ite_false]
      exact ih h.2

/-- C7. After ingesting two observations carrying the same threat
identifier `k` with positions `p1` then `p2`, the threat field holds
exactly one entry for `k`, and its value is `p2`: the entry is
overwritten, not appended.  (The no-duplicate-keys hypothesis is the
invariant Python dicts maintain by construction.) -/
theorem claim_C7_threat_overwrite (e : NewtonStateEngine) (k : String) (p1 p2 : ℚ)
    (h : (e.field_vectors.map Prod.fst).Nodup) :
    (tick (tick e { dove_location := none, falcon_location := some p1, falcon_id := some k } [])
        { dove_location := none, falcon_location := some p2, falcon_id := some k }
        []).field_vectors.filter (fun p => p.1 == k) = [(k, p2)] := by
  have hfv :
      (tick (tick e { dove_location := none, falcon_location := some p1, falcon_id := some k } [])
          { dove_location := none, falcon_location := some p2, falcon_id := some k }
          []).field_vectors =
        updateFieldVectors (updateFieldVectors e.field_vectors k p1) k p2 := rfl
  rw [hfv]
  exact filter_updateFieldVectors _ k p2 (keys_nodup_updateFieldVectors _ k p1 h)

/-- Witness for C7: fresh engine, identifier "t1", positions 1 then 2. -/
theorem claim_C7_threat_overwrite_witness :
    (initEngine.field_vectors.map Prod.fst).Nodup ∧
    (tick (tick initEngine
          { dove_location := none, falcon_location := some 1, falcon_id := some "t1" } [])
        { dove_location := none, falcon_location := some 2, falcon_id := some "t1" }
        []).field_vectors.filter (fun p => p.1 == "t1") = [("t1", 2)] :=
  ⟨by decide, claim_C7_threat_overwrite initEngine "t1" 1 2 (by decide)⟩

/-- C8. On every estimator state (all positions rational, hence finite),
the guarded evaluation of the prediction succeeds and agrees with
`predict`: every partial numeric operation of the source — the
gradients, the variance, the argmin and the cohesion division — is
applied within its domain, thanks to the warmup branch, the
single-threat and empty-field sentinels and the `+ 0.1` in the
cohesion divisor, so no NaN/undefined value can reach the output. -/
theorem claim_C8_no_nan (e : NewtonStateEngine) : predictChecked e = some (predict e) := by
  unfold predictChecked predict
  split
  · rfl
  next h =>
    have h5 : 5 ≤ e.state_buffer.length := Nat.le_of_not_lt h
    have h2 : 2 ≤ e.state_buffer.length := by omega
    have hg : npGradientChecked e.state_buffer = some (npGradient e.state_buffer) := by
      rw [npGradientChecked, if_pos h2]
    have hg2 : npGradientChecked (npGradient e.state_buffer) =
        some (npGradient (npGradient e.state_buffer)) := by
      rw [npGradientChecked, if_pos]
      rw [npGradient_length]
      exact h2
    simp only [hg, hg2, Option.bind_eq_bind', Option.some_bind', Option.pure_def]
    by_cases ht : (threats e).length > 0
    · have hct : closest_threat_loc e =
          some ((threats e).getD (npArgmin ((threats e).map fun t => |t - e.last_pos|)) 0) := by
        rw [closest_threat_loc, if_pos ht]
      have harg : npArgminChecked ((threats e).map fun t => |t - e.last_pos|) =
          some (npArgmin ((threats e).map fun t => |t - e.last_pos|)) := by
        rw [npArgminChecked, if_pos]
        rw [List.length_map]
        omega
      by_cases h1 : (threats e).length > 1
      · have hfv : field_variance e = npVar (threats e) := by
          rw [field_variance, if_pos ht, if_pos h1]
        have hvar : npVarChecked (threats e) = some (npVar (threats e)) := by
          rw [npVarChecked, if_pos]
          omega
        have hpos : (0 : ℚ) < npVar (threats e) + 0.1 := by
          have := npVar_nonneg (threats e)
          linarith
        have hdiv : divChecked 1.0 (npVar (threats e) + 0.1) =
            some (1.0 / (npVar (threats e) + 0.1)) := by
          rw [divChecked, if_neg hpos.ne']
        simp only [if_pos ht, if_pos h1, hvar, harg, hdiv, Option.some_bind']
        simp only [mixtureRecord, locA, inertial_mean, velocity, acceleration, scaleA,
          locB, scaleB, locC, scaleC, cohesion_index, wA, wB, wC, wARaw, wBRaw,
          repulsion_dir, hfv, hct, apply_ite Prod.fst, apply_ite Prod.snd]
      · have hfv : field_variance e = 1.0 := by
          rw [field_variance, if_pos ht, if_neg h1]
        have hdiv : divChecked 1.0 ((1.0 : ℚ) + 0.1) = some (1.0 / ((1.0 : ℚ) + 0.1)) := by
          rw [divChecked, if_neg]
          norm_num
        simp only [if_pos ht, if_neg h1, harg, hdiv, Option.some_bind']
        simp only [mixtureRecord, locA, inertial_mean, velocity, acceleration, scaleA,
          locB, scaleB, locC, scaleC, cohesion_index, wA, wB, wC, wARaw, wBRaw,
          repulsion_dir, hfv, hct, apply_ite Prod.fst, apply_ite Prod.snd]
    · have hfv : field_variance e = 10.0 := by
        rw [field_variance, if_neg ht]
      have hct : closest_threat_loc e = none := by
        rw [closest_threat_loc, if_neg ht]
      have hdiv : divChecked 1.0 ((10.0 : ℚ) + 0.1) = some (1.0 / ((10.0 : ℚ) + 0.1)) := by
        rw [divChecked, if_neg]
        norm_num
      simp only [if_neg ht, Option.some_bind', hdiv]
      simp only [mixtureRecord, locA, inertial_mean, velocity, acceleration, scaleA,
        locB, scaleB, locC, scaleC, cohesion_index, wA, wB, wC, wARaw, wBRaw,
        repulsion_dir, hfv, hct, apply_ite Prod.fst, apply_ite Prod.snd]

/-- C5. With an empty threat field and a warm history (≥ 5 samples),
prediction uses the field-variance sentinel 10.0, component B copies
component A's center and spread exactly, and the cohesion index is
1/10.1 (the clamp into [0, 1] leaves it unchanged). -/
theorem claim_C5_no_threat_sentinel (e : NewtonStateEngine)
    (h1 : e.field_vectors = []) (h2 : 5 ≤ e.state_buffer.length) :
    field_variance e = 10.0 ∧ locB e = locA e ∧ scaleB e = scaleA e ∧
    cohesion_index e = 1 / 10.1 ∧ predict e = mixtureRecord e := by
  have ht : threats e = [] := by
    rw [threats, h1]
    rfl
  have hlen : ¬ (threats e).length > 0 := by
    rw [ht]
    decide
  have hfv : field_variance e = 10.0 := by
    rw [field_variance, if_neg hlen]
  have hct : closest_threat_loc e = none := by
    rw [closest_threat_loc, if_neg hlen]
  refine ⟨hfv, ?_, ?_, ?_, ?_⟩
  · simp only [locB, hct]
  · simp only [scaleB, hct]
  · rw [cohesion_index, hfv]
    norm_num [npClip]
  · unfold predict
    rw [if_neg (not_lt.mpr h2)]

/-- Witness for C5 at the end-to-end example state (empty threat field,
five samples of history). -/
theorem claim_C5_no_threat_sentinel_witness :
    exampleEngine.field_vectors = [] ∧ 5 ≤ exampleEngine.state_buffer.length ∧
    (field_variance exampleEngine = 10.0 ∧
      locB exampleEngine = locA exampleEngine ∧
      scaleB exampleEngine = scaleA exampleEngine ∧
      cohesion_index exampleEngine = 1 / 10.1 ∧
      predict exampleEngine = mixtureRecord exampleEngine) :=
  ⟨by decide, by decide, claim_C5_no_threat_sentinel exampleEngine (by decide) (by decide)⟩
